import Mathlib

/-!
Shallow embedding of the change-orchestration core of the CI-CDMongoDB-API
repository (src/src/services/changes.service.ts and
src/src/services/mongo.service.ts), together with theorems settling the
frozen claims about it.

The MongoDB server, as seen through the narrow slice of the Node driver the
service uses (listCollections, createCollection, collection.indexes,
createIndex, dropIndex, countDocuments, dropCollection, and the audit
insertOne / find+sort+limit / updateOne of the audit collection), is modelled as an
in-memory state: a map from connection URI to a server, each server holding
named databases (association lists of named collections) plus its audit
collection.  Index options other than the index name (unique,
partialFilterExpression) and createCollection options are passed through to
the driver by the service and never read back by it, so they do not appear
in the state.  Wall-clock time and random change-id generation are modelled
by a monotone counter threaded through the world.
-/

namespace CICD

/-- Association-list lookup keyed by strings, the model of looking a named
collection or database up on the server. -/
def alookup {α : Type} : List (String × α) → String → Option α
  | [], _ => none
  | (k, v) :: rest, key => if k = key then some v else alookup rest key

/-- Association-list insert-or-replace: replaces the first binding of the key
in place, or appends a new binding at the end. -/
def aupsert {α : Type} : List (String × α) → String → α → List (String × α)
  | [], key, v => [(key, v)]
  | (k, w) :: rest, key, v =>
    if k = key then (k, v) :: rest else (k, w) :: aupsert rest key v

/-- Association-list removal of every binding of the key, the model of
dropping a named collection. -/
def aremove {α : Type} : List (String × α) → String → List (String × α)
  | [], _ => []
  | (k, v) :: rest, key =>
    if k = key then aremove rest key else (k, v) :: aremove rest key

/-- Outcome status of a change attempt or of an audit record.  The service
stores these as the strings "applied", "skipped", "failed" and "reverted". -/
inductive Status where
  | applied
  | skipped
  | failed
  | reverted
deriving DecidableEq, Repr

/-- The string the service stores for each status value. -/
def Status.toString : Status → String
  | .applied => "applied"
  | .skipped => "skipped"
  | .failed => "failed"
  | .reverted => "reverted"

/-- Operation-specific undo descriptor built by applyChange. -/
inductive RevertPlan where
  | dropCollection (collection : String) (requiresEmpty : Bool)
  | dropIndex (collection : String) (name : String)
deriving DecidableEq, Repr

/-- One index as reported by collection.indexes(): its name and its ordered
key specification (field name to direction).  The service reads only these
two fields of the index documents the driver reports. -/
structure IndexInfo where
  name : String
  key : List (String × Int)
deriving DecidableEq, Repr

/-- One collection: its document count (all that countDocuments observes)
and its list of indexes. -/
structure Coll where
  docs : Nat
  indexes : List IndexInfo
deriving DecidableEq, Repr

/-- A database is an association list of named collections; a collection
exists exactly when it has a binding. -/
abbrev DbData := List (String × Coll)

/-- Index options of a createIndex request as far as the service reads them
back: only the optional explicit name.  unique and partialFilterExpression
are forwarded to the driver untouched. -/
structure IndexOptions where
  name : Option String
deriving DecidableEq, Repr

/-- The closed variant of supported operations, as produced by the request
validator (zod discriminated union of createCollection and createIndex). -/
inductive Operation where
  | createCollection (collection : String)
  | createIndex (collection : String) (spec : List (String × Int))
      (options : Option IndexOptions)
deriving DecidableEq, Repr

/-- Target endpoint of a change: connection URI and database name. -/
structure Target where
  uri : String
  database : String
deriving DecidableEq, Repr

/-- A validated change request (the output of ChangeRequestSchema.parse).
metadata is opaque to the engine and only copied into the audit record. -/
structure ChangeRequest where
  changeId : Option String
  target : Target
  operation : Operation
  metadata : List (String × String)
deriving DecidableEq, Repr

/-- The result object applyChange returns.  revertPlan = none models a
returned object with no revertPlan field at all (the catch path builds the
object without that key); on the success path the field is always present
and holds a plan object. -/
structure ChangeResult where
  changeId : String
  status : Status
  message : String
  revertPlan : Option RevertPlan
  durationMs : Nat
deriving DecidableEq, Repr

/-- One persisted document of the cicd_changes_audit collection.  rid models
the Mongo _id; createdAt models the insertion timestamp (both are drawn from
the monotone counter of the world). -/
structure AuditRecord where
  rid : Nat
  changeId : String
  targetUri : String
  targetDb : String
  operation : Operation
  metadata : List (String × String)
  status : Status
  message : String
  revertPlan : Option RevertPlan
  createdAt : Nat
  revertedAt : Option Nat
  revertMessage : Option String
deriving DecidableEq, Repr

/-- One MongoDB server reachable at a given URI: its named databases and its
audit collection (the collection AUDIT_COLLECTION in the audit database of
the same client). -/
structure Server where
  dbs : List (String × DbData)
  audit : List AuditRecord
deriving DecidableEq, Repr

/-- The whole reachable world: servers keyed by connection URI, plus the
monotone counter supplying timestamps, audit ids and generated change ids. -/
structure World where
  servers : List (String × Server)
  counter : Nat
deriving DecidableEq, Repr

/-- A URI with no binding behaves as a fresh, empty server. -/
def emptyServer : Server := { dbs := [], audit := [] }

/-- Fetches the server for a URI, defaulting to an empty one. -/
def getServer (w : World) (uri : String) : Server :=
  (alookup w.servers uri).getD emptyServer

/-- Writes a server back under its URI. -/
def setServer (w : World) (uri : String) (s : Server) : World :=
  { w with servers := aupsert w.servers uri s }

/-- Model of newChangeId(): a fresh identifier drawn from the counter. -/
def newChangeId (w : World) : String × World :=
  ("chg-" ++ Nat.repr w.counter, { w with counter := w.counter + 1 })

/-- Effective index name of a createIndex operation:
options?.name || "idx_" + Object.keys(spec).join("_").  The JS || treats an
empty explicit name as absent; the derived name joins the field names of the spec
in their declaration order. -/
def deriveIndexName (options : Option IndexOptions) (spec : List (String × Int)) : String :=
  let derived := "idx_" ++ String.intercalate "_" (spec.map Prod.fst)
  match options with
  | some o =>
    match o.name with
    | some n => if n = "" then derived else n
    | none => derived
  | none => derived

/-- Options of applyChange; dryRun is the simulate flag. -/
structure ApplyOptions where
  dryRun : Bool := false
deriving DecidableEq, Repr

/-- The body of the try block of applyChange, acting on the target database.
Returns the status, message and revert plan together with the mutated
database when a real mutation happened (mutations only occur with dryRun
false); a thrown error is an Except.error carrying the message. -/
def applyChangeBody (db : DbData) (op : Operation) (dryRun : Bool) :
    Except String (Status × String × RevertPlan × Option DbData) :=
  match op with
  | .createCollection name =>
    let plan := RevertPlan.dropCollection name true
    if (alookup db name).isSome then
      .ok (.skipped, "Change skipped because the collection already exists.", plan, none)
    else if dryRun then
      .ok (.applied, "Change applied successfully.", plan, none)
    else
      .ok (.applied, "Change applied successfully.", plan,
        some (aupsert db name { docs := 0, indexes := [] }))
  | .createIndex collection spec options =>
    let name := deriveIndexName options spec
    let indexes := ((alookup db collection).map Coll.indexes).getD []
    let plan := RevertPlan.dropIndex collection name
    match indexes.find? (fun i => i.name == name) with
    | some sameName =>
      if sameName.key = spec then
        .ok (.skipped,
          "Change skipped because an index with the same name and keys already exists.",
          plan, none)
      else
        .error "An index with this name already exists but uses different keys."
    | none =>
      if dryRun then
        .ok (.applied, "Change applied successfully.", plan, none)
      else
        let coll := (alookup db collection).getD { docs := 0, indexes := [] }
        let coll2 := { coll with indexes := coll.indexes ++ [{ name := name, key := spec }] }
        .ok (.applied, "Change applied successfully.", plan, some (aupsert db collection coll2))

/-- Resolves the change id exactly as parsed.changeId || newChangeId(): an
absent or empty id is replaced by a generated one. -/
def resolveChangeId (w : World) (given : Option String) : String × World :=
  match given with
  | some cid => if cid = "" then newChangeId w else (cid, w)
  | none => newChangeId w

/-- The audit document applyChange inserts for an outcome. -/
def auditRecOf (w : World) (req : ChangeRequest) (changeId : String)
    (status : Status) (message : String) (plan : Option RevertPlan) : AuditRecord :=
  { rid := w.counter
    changeId := changeId
    targetUri := req.target.uri
    targetDb := req.target.database
    operation := req.operation
    metadata := req.metadata
    status := status
    message := message
    revertPlan := plan
    createdAt := w.counter
    revertedAt := none
    revertMessage := none }

/-- Appends one audit record for the outcome of an applyChange call, writes
back the mutated database when there is one, and advances the clock. -/
def auditInsert (w : World) (uri : String) (s : Server) (db2 : Option DbData)
    (dbName : String) (req : ChangeRequest) (changeId : String)
    (status : Status) (message : String) (plan : Option RevertPlan) : World :=
  let s2 :=
    match db2 with
    | some d => { s with dbs := aupsert s.dbs dbName d }
    | none => s
  setServer { w with counter := w.counter + 1 } uri
    { s2 with audit := s2.audit ++ [auditRecOf w req changeId status message plan] }

/-- Model of applyChange: applies one validated change and records it in the
audit collection unless simulating.  Returns the ChangeResult and the new
world.  durationMs is the elapsed model time. -/
def applyChange (w : World) (req : ChangeRequest) (opts : ApplyOptions := {}) :
    ChangeResult × World :=
  let dryRun := opts.dryRun
  let t0 := w.counter
  let changeId := (resolveChangeId w req.changeId).1
  let w1 := (resolveChangeId w req.changeId).2
  let server := getServer w1 req.target.uri
  let db := (alookup server.dbs req.target.database).getD []
  match applyChangeBody db req.operation dryRun with
  | .ok (status, message, plan, db2) =>
    let w2 :=
      if dryRun then w1
      else auditInsert w1 req.target.uri server db2 req.target.database req changeId
        status message (some plan)
    ({ changeId := changeId, status := status, message := message,
       revertPlan := some plan, durationMs := w2.counter - t0 }, w2)
  | .error errorMessage =>
    let w2 :=
      if dryRun then w1
      else auditInsert w1 req.target.uri server none req.target.database req changeId
        .failed errorMessage none
    ({ changeId := changeId, status := .failed, message := errorMessage,
       revertPlan := none, durationMs := w2.counter - t0 }, w2)

/-- The result object revertChange returns; change is the request
reconstructed from the audit record (absent on the not-found path). -/
structure RevertResult where
  changeId : String
  status : Status
  message : String
  change : Option ChangeRequest
deriving DecidableEq, Repr

/-- Model of audit.find({changeId, "target.uri": uri}).sort({createdAt: -1})
.limit(1).next(): the matching record with the greatest createdAt (among
equals the engine inserts none, since the clock is strictly monotone; the
fold lets a later duplicate win, a legal refinement of the unspecified Mongo
tie order). -/
def latestAudit (l : List AuditRecord) (cid uri : String) : Option AuditRecord :=
  l.foldl
    (fun acc r =>
      if r.changeId = cid ∧ r.targetUri = uri then
        match acc with
        | none => some r
        | some b => if b.createdAt ≤ r.createdAt then some r else some b
      else acc)
    none

/-- Model of audit.updateOne({_id: rid}, {$set: ...}): rewrites the first
record with the given rid. -/
def markReverted (l : List AuditRecord) (rid : Nat) (t : Nat) (msg : String) :
    List AuditRecord :=
  match l with
  | [] => []
  | r :: rest =>
    if r.rid = rid then
      { r with revertedAt := some t, revertMessage := some msg, status := .reverted } :: rest
    else r :: markReverted rest rid t msg

/-- The database revertChange acts on: the explicit ctx.database override
when given and non-empty (an empty string is JS falsy), else the database
recorded on the audit entry. -/
def revertDbName (database : Option String) (recordedDb : String) : String :=
  match database with
  | some d => if d = "" then recordedDb else d
  | none => recordedDb

/-- Model of revertChange: undoes the change recorded under changeId on the
server at uri.  database models ctx.database, where an empty string is JS
falsy and defers to the database recorded on the audit entry. -/
def revertChange (w : World) (changeId : String) (uri : String)
    (database : Option String) : RevertResult × World :=
  let server := getServer w uri
  match latestAudit server.audit changeId uri with
  | none =>
    ({ changeId := changeId, status := .failed,
       message := "No audit entry was found for the requested changeId.",
       change := none }, w)
  | some r =>
    let dbName := revertDbName database r.targetDb
    let db := (alookup server.dbs dbName).getD []
    let changeRecord : ChangeRequest :=
      { changeId := some r.changeId, target := { uri := r.targetUri, database := r.targetDb },
        operation := r.operation, metadata := r.metadata }
    match r.operation with
    | .createIndex collection spec options =>
      let name := deriveIndexName options spec
      match alookup db collection with
      | some c =>
        if c.indexes.any (fun i => i.name == name) then
          let c2 := { c with indexes := c.indexes.filter (fun i => !(i.name == name)) }
          let s2 :=
            { dbs := aupsert server.dbs dbName (aupsert db collection c2)
              audit := markReverted server.audit r.rid w.counter "Index dropped successfully." }
          ({ changeId := changeId, status := .reverted,
             message := "Index dropped successfully.", change := some changeRecord },
           setServer { w with counter := w.counter + 1 } uri s2)
        else
          ({ changeId := changeId, status := .failed,
             message := "Failed to drop index: index not found with name " ++ name,
             change := some changeRecord }, w)
      | none =>
        ({ changeId := changeId, status := .failed,
           message := "Failed to drop index: ns does not exist", change := some changeRecord },
         w)
    | .createCollection collection =>
      let count := ((alookup db collection).map Coll.docs).getD 0
      if count > 0 then
        ({ changeId := changeId, status := .failed,
           message := "Cannot drop the collection because it is not empty.",
           change := some changeRecord }, w)
      else
        match alookup db collection with
        | some _ =>
          let s2 :=
            { dbs := aupsert server.dbs dbName (aremove db collection)
              audit := markReverted server.audit r.rid w.counter
                "Collection dropped successfully." }
          ({ changeId := changeId, status := .reverted,
             message := "Collection dropped successfully.", change := some changeRecord },
           setServer { w with counter := w.counter + 1 } uri s2)
        | none =>
          ({ changeId := changeId, status := .failed,
             message := "Failed to drop collection: ns not found",
             change := some changeRecord }, w)

/-- Options of applyBatch; stopOnError is tri-state because the code tests
opts.stopOnError !== false, so only an explicit false disables it. -/
structure BatchOptions where
  stopOnError : Option Bool := none
  dryRun : Bool := false
deriving DecidableEq, Repr

/-- The batch outcome: status is the string "ok" or "rolled_back". -/
structure BatchResult where
  status : String
  failedAt : Option Nat
  results : List ChangeResult
deriving DecidableEq, Repr

/-- Model of the id assignment at the top of the batch loop:
if (!c.changeId) c.changeId = newChangeId(). -/
def assignId (w : World) (c : ChangeRequest) : ChangeRequest × World :=
  match c.changeId with
  | some cid =>
    if cid = "" then
      ({ c with changeId := some (newChangeId w).1 }, (newChangeId w).2)
    else (c, w)
  | none => ({ c with changeId := some (newChangeId w).1 }, (newChangeId w).2)

/-- Compensation sweep of applyBatch: reverts the recorded (changeId, target)
pairs front to back, discarding every individual revert outcome (the code
wraps each revertChange in try/catch and ignores both). -/
def compensate (w : World) (entries : List (String × Target)) : World :=
  entries.foldl
    (fun wAcc e => (revertChange wAcc e.1 e.2.uri (some e.2.database)).2)
    w

/-- The loop of applyBatch over the remaining requests, carrying the index
of the current request, the results so far and the applied (never skipped)
changes recorded as candidates for compensation. -/
def applyBatchAux (w : World) (rest : List ChangeRequest) (i : Nat)
    (results : List ChangeResult) (applied : List (String × Target))
    (stopOnError dryRun : Bool) : BatchResult × World :=
  match rest with
  | [] => ({ status := "ok", failedAt := none, results := results }, w)
  | c :: more =>
    let c2 := (assignId w c).1
    let w1 := (assignId w c).2
    let res := (applyChange w1 c2 { dryRun := dryRun }).1
    let w2 := (applyChange w1 c2 { dryRun := dryRun }).2
    let results2 := results ++ [res]
    if res.status = .failed ∧ stopOnError ∧ ¬dryRun then
      let w3 := compensate w2 applied.reverse
      ({ status := "rolled_back", failedAt := some i, results := results2 }, w3)
    else
      let applied2 :=
        if res.status = .applied ∧ ¬dryRun then applied ++ [(res.changeId, c.target)]
        else applied
      applyBatchAux w2 more (i + 1) results2 applied2 stopOnError dryRun

/-- Model of applyBatch: sequentially applies the ordered list of changes,
compensating in reverse order and stopping at the first failure when
stopOnError holds and the run is not simulated. -/
def applyBatch (w : World) (changes : List ChangeRequest) (opts : BatchOptions := {}) :
    BatchResult × World :=
  applyBatchAux w changes 0 [] [] (opts.stopOnError ≠ some false) opts.dryRun

/-- Query filters of listChanges.  since models the raw since string: some
none stands for a string that does not parse as a date (the code then skips
the createdAt filter), some (some t) for one parsing to time t. -/
structure ListQuery where
  status : Option String := none
  since : Option (Option Nat) := none
  limit : Option Nat := none
  skip : Option Nat := none
deriving DecidableEq, Repr

/-- Splitting a character list at commas, the model of String.split(","). -/
def splitCommaChars (l : List Char) (acc : List Char) : List String :=
  match l with
  | [] => [String.mk acc.reverse]
  | c :: rest =>
    if c = ',' then String.mk acc.reverse :: splitCommaChars rest []
    else splitCommaChars rest (c :: acc)

/-- Model of s.split(","). -/
def splitOnComma (s : String) : List String := splitCommaChars s.data []

/-- Model of String.trim: strips whitespace from both ends. -/
def trimStr (s : String) : String :=
  String.mk (((s.data.dropWhile Char.isWhitespace).reverse.dropWhile
    Char.isWhitespace).reverse)

/-- The comma-separated status filter as the code builds it: split on
commas, trim, drop empties. -/
def parseStatusFilter (s : String) : List String :=
  ((splitOnComma s).map trimStr).filter (fun x => x ≠ "")

/-- The Mongo filter document of listChanges as a predicate on audit
records.  An empty status string is JS falsy and selects the default branch
excluding reverted records. -/
def listFilter (uri : String) (q : ListQuery) (r : AuditRecord) : Bool :=
  (r.targetUri == uri) &&
  (match q.status with
   | some s =>
     if s = "" then !(r.status == .reverted)
     else (parseStatusFilter s).contains r.status.toString
   | none => !(r.status == .reverted)) &&
  (match q.since with
   | some (some d) => decide (d ≤ r.createdAt)
   | some none => true
   | none => true)

/-- The page listChanges returns together with the total matching count. -/
structure ListResult where
  total : Nat
  items : List AuditRecord
deriving DecidableEq, Repr

/-- Newest-first order on audit records (sort {createdAt: -1}). -/
def newestFirst (a b : AuditRecord) : Prop := b.createdAt ≤ a.createdAt

instance : DecidableRel newestFirst := fun a b => Nat.decLe b.createdAt a.createdAt

instance : IsTotal AuditRecord newestFirst :=
  ⟨fun a b => Nat.le_total b.createdAt a.createdAt⟩

instance : IsTrans AuditRecord newestFirst :=
  ⟨fun _ _ _ hab hbc => Nat.le_trans hbc hab⟩

/-- Model of listChanges: filter, sort newest-first, skip, cap the page at
min(limit || 100, 500), and report the total matching count alongside. -/
def listChanges (w : World) (uri : String) (q : ListQuery) : ListResult :=
  let server := getServer w uri
  let matching := server.audit.filter (listFilter uri q)
  let sorted := List.insertionSort newestFirst matching
  let lim :=
    min (match q.limit with
         | some n => if n = 0 then 100 else n
         | none => 100) 500
  let sk :=
    match q.skip with
    | some n => n
    | none => 0
  { total := matching.length, items := (sorted.drop sk).take lim }

/-- Model of getChange: the newest audit record for (changeId, uri). -/
def getChange (w : World) (changeId : String) (uri : String) : Option AuditRecord :=
  latestAudit (getServer w uri).audit changeId uri

/-- Connection-manager state of mongo.service.ts: the module-level client
cache, plus the log of every connection actually established (to state that
blocked URIs are never connected). -/
structure ConnState where
  cache : List String
  connections : List String
deriving DecidableEq, Repr

/-- The cache branch of getClient: return the cached handle, else connect
and cache.  A handle is modelled by the URI it serves. -/
def connectOrCache (st : ConnState) (uri : String) : Except String String × ConnState :=
  if st.cache.contains uri then (.ok uri, st)
  else
    (.ok uri,
     { cache := st.cache ++ [uri], connections := st.connections ++ [uri] })

/-- Model of getClient: allow is the configured ALLOW_TARGET_URI_REGEX as an
abstract matcher (none when the variable is unset or empty, which is JS
falsy and disables the check).  The pattern is tested before the cache is
consulted and before any connection attempt. -/
def getClient (allow : Option (String → Bool)) (st : ConnState) (uri : String) :
    Except String String × ConnState :=
  match allow with
  | some p =>
    if p uri then connectOrCache st uri
    else
      (.error "The provided MongoDB URI does not match ALLOW_TARGET_URI_REGEX.", st)
  | none => connectOrCache st uri

/-- The database a request acts on, as the service reads it through the
client for the given URI. -/
def dbAt (w : World) (uri dbName : String) : DbData :=
  (alookup (getServer w uri).dbs dbName).getD []

/-- The index list of a collection as collection.indexes() reports it (empty
for a collection that does not exist). -/
def indexesAt (w : World) (uri dbName coll : String) : List IndexInfo :=
  ((alookup (dbAt w uri dbName) coll).map Coll.indexes).getD []

/-- A plain sequential run of applyChange over a list of requests, with the
id assignment of the batch loop but without stopping or compensation; the batch
loop agrees with it up to the first failure. -/
def seqApply (w : World) (cs : List ChangeRequest) (dryRun : Bool) :
    List ChangeResult × World :=
  match cs with
  | [] => ([], w)
  | c :: more =>
    let c2 := (assignId w c).1
    let w1 := (assignId w c).2
    let res := (applyChange w1 c2 { dryRun := dryRun }).1
    let w2 := (applyChange w1 c2 { dryRun := dryRun }).2
    ((res :: (seqApply w2 more dryRun).1), (seqApply w2 more dryRun).2)

/-- The compensation candidates a run of the batch loop accumulates: the
(changeId, target) pairs of exactly the results whose status is applied. -/
def appliedEntries (rs : List ChangeResult) (cs : List ChangeRequest) :
    List (String × Target) :=
  (rs.zip cs).filterMap
    (fun p => if p.1.status = .applied then some (p.1.changeId, p.2.target) else none)

/-- Lexicographic at-most comparison of character lists by code point,
used only by the spec-modelled sorted derivation below. -/
def charsLe : List Char → List Char → Bool
  | [], _ => true
  | _ :: _, [] => false
  | x :: xs, y :: ys =>
    if x.toNat = y.toNat then charsLe xs ys else decide (x.toNat < y.toNat)

/-- Lexicographic at-most comparison of strings by code point. -/
def strLe (a b : String) : Bool := charsLe a.data b.data

/-- Insertion into a sorted list of strings. -/
def insertSorted (x : String) : List String → List String
  | [] => [x]
  | y :: ys => if strLe x y then x :: y :: ys else y :: insertSorted x ys

/-- Insertion sort of strings by the lexicographic order. -/
def sortStrings (l : List String) : List String := l.foldr insertSorted []

/-- Modelled from the spec: the index-name derivation as the spec words it
("derived from sorted field names"), joining the field names in sorted
order.  Kept only to compare against the derivation the code performs. -/
def sortedDerivedName (spec : List (String × Int)) : String :=
  "idx_" ++ String.intercalate "_" (sortStrings (spec.map Prod.fst))

/-- An empty world: no servers known yet, clock at zero. -/
def wEmpty : World := { servers := [], counter := 0 }

/-- Fixture: create an ascending email index on users in database D at
server u, with no explicit name. -/
def reqEmail : ChangeRequest :=
  { changeId := some "c1", target := { uri := "u", database := "D" },
    operation := .createIndex "users" [("email", 1)] none, metadata := [] }

/-- Fixture: a conflicting index request, explicitly named like the derived
name of reqEmail but with a different key specification. -/
def reqEmailDesc : ChangeRequest :=
  { changeId := some "c2", target := { uri := "u", database := "D" },
    operation := .createIndex "users" [("email", -1)] (some { name := some "idx_email" }),
    metadata := [] }

/-- Fixture: create a fresh collection. -/
def reqNewColl : ChangeRequest :=
  { changeId := some "c0", target := { uri := "u", database := "D" },
    operation := .createCollection "newcoll", metadata := [] }

/-- Fixture: a createIndex whose spec lists its fields in non-alphabetical
order, with no explicit name. -/
def reqTwoFields : ChangeRequest :=
  { changeId := some "c3", target := { uri := "u", database := "D" },
    operation := .createIndex "users" [("b", 1), ("a", 1)] none, metadata := [] }

/-- Fixture: the world after reqEmail has been applied to the empty world. -/
def wWithIdx : World := (applyChange wEmpty reqEmail {}).2

/-- Fixture: an audit record of an applied createCollection of logs. -/
def auditRecLogs : AuditRecord :=
  { rid := 0, changeId := "cc", targetUri := "u", targetDb := "D",
    operation := .createCollection "logs", metadata := [],
    status := .applied, message := "Change applied successfully.",
    revertPlan := some (.dropCollection "logs" true), createdAt := 0,
    revertedAt := none, revertMessage := none }

/-- Fixture: a world whose logs collection holds two documents and whose
audit trail records the createCollection that made it. -/
def wPopulated : World :=
  { servers := [("u",
      { dbs := [("D", [("logs", { docs := 2, indexes := [] })])],
        audit := [auditRecLogs] })],
    counter := 1 }

/-- Fixture: the same world with the logs collection empty. -/
def wEmptyColl : World :=
  { servers := [("u",
      { dbs := [("D", [("logs", { docs := 0, indexes := [] })])],
        audit := [auditRecLogs] })],
    counter := 1 }

/-- Fixture: an audit trail with one applied, one reverted and one failed
record, newest last. -/
def wListing : World :=
  { servers := [("u",
      { dbs := [],
        audit :=
          [{ rid := 0, changeId := "a", targetUri := "u", targetDb := "D",
             operation := .createCollection "x", metadata := [], status := .applied,
             message := "m", revertPlan := none, createdAt := 0, revertedAt := none,
             revertMessage := none },
           { rid := 1, changeId := "b", targetUri := "u", targetDb := "D",
             operation := .createCollection "y", metadata := [], status := .reverted,
             message := "m", revertPlan := none, createdAt := 1, revertedAt := some 2,
             revertMessage := none },
           { rid := 2, changeId := "c", targetUri := "u", targetDb := "D",
             operation := .createCollection "z", metadata := [], status := .failed,
             message := "m", revertPlan := none, createdAt := 2, revertedAt := none,
             revertMessage := none }] })],
    counter := 3 }

/-! Helper lemmas about the association-list primitives and the plumbing of
the world state. -/

theorem alookup_aupsert_self {α : Type} (l : List (String × α)) (k : String) (v : α) :
    alookup (aupsert l k v) k = some v := by
  induction l with
  | nil => simp [alookup, aupsert]
  | cons hd tl ih =>
    by_cases h : hd.1 = k
    · simp [alookup, aupsert, h]
    · simp [alookup, aupsert, h, ih]

theorem alookup_aupsert_ne {α : Type} (l : List (String × α)) (k k' : String) (v : α)
    (h : k ≠ k') : alookup (aupsert l k v) k' = alookup l k' := by
  induction l with
  | nil => simp [alookup, aupsert, h]
  | cons hd tl ih =>
    by_cases hh : hd.1 = k
    · simp [alookup, aupsert, hh, h]
    · simp [alookup, aupsert, hh, ih]

theorem alookup_aremove_self {α : Type} (l : List (String × α)) (k : String) :
    alookup (aremove l k) k = none := by
  induction l with
  | nil => simp [alookup, aremove]
  | cons hd tl ih =>
    by_cases h : hd.1 = k
    · simp [aremove, h, ih]
    · simp [alookup, aremove, h, ih]

theorem getServer_setServer_self (w : World) (uri : String) (s : Server) :
    getServer (setServer w uri s) uri = s := by
  simp [getServer, setServer, alookup_aupsert_self]

theorem getServer_setServer_ne (w : World) (uri u : String) (s : Server) (h : uri ≠ u) :
    getServer (setServer w uri s) u = getServer w u := by
  simp [getServer, setServer, alookup_aupsert_ne _ _ _ _ h]

theorem getServer_congr {w w' : World} (uri : String) (h : w'.servers = w.servers) :
    getServer w' uri = getServer w uri := by
  simp [getServer, h]

theorem resolveChangeId_servers (w : World) (g : Option String) :
    (resolveChangeId w g).2.servers = w.servers := by
  cases g with
  | none => simp [resolveChangeId, newChangeId]
  | some cid =>
    by_cases h : cid = "" <;> simp [resolveChangeId, newChangeId, h]

theorem assignId_servers (w : World) (c : ChangeRequest) :
    ((assignId w c).2).servers = w.servers := by
  cases h : c.changeId with
  | none => simp [assignId, newChangeId, h]
  | some cid =>
    by_cases hc : cid = "" <;> simp [assignId, newChangeId, h, hc]

theorem assignId_fst_target (w : World) (c : ChangeRequest) :
    ((assignId w c).1).target = c.target := by
  cases h : c.changeId with
  | none => simp [assignId, h]
  | some cid =>
    by_cases hc : cid = "" <;> simp [assignId, h, hc]

theorem assignId_fst_operation (w : World) (c : ChangeRequest) :
    ((assignId w c).1).operation = c.operation := by
  cases h : c.changeId with
  | none => simp [assignId, h]
  | some cid =>
    by_cases hc : cid = "" <;> simp [assignId, h, hc]

theorem dbAt_congr {w w' : World} (uri dbName : String) (h : w'.servers = w.servers) :
    dbAt w' uri dbName = dbAt w uri dbName := by
  simp [dbAt, getServer_congr uri h]

/-! Projection lemmas decomposing applyChange by the outcome of its body. -/

theorem applyChange_fst_of_ok (opts : ApplyOptions) {w : World} {req : ChangeRequest}
    {st : Status} {msg : String} {plan : RevertPlan} {mdb : Option DbData}
    (h : applyChangeBody (dbAt w req.target.uri req.target.database) req.operation
      opts.dryRun = .ok (st, msg, plan, mdb)) :
    (applyChange w req opts).1.status = st ∧
    (applyChange w req opts).1.message = msg ∧
    (applyChange w req opts).1.revertPlan = some plan ∧
    (applyChange w req opts).1.changeId = (resolveChangeId w req.changeId).1 := by
  have hs : getServer (resolveChangeId w req.changeId).2 req.target.uri =
      getServer w req.target.uri :=
    getServer_congr req.target.uri (resolveChangeId_servers w req.changeId)
  have hfold : (alookup (getServer w req.target.uri).dbs req.target.database).getD
      ([] : DbData) = dbAt w req.target.uri req.target.database := rfl
  simp only [applyChange, hs, hfold, h]
  exact ⟨trivial, trivial, trivial, trivial⟩

theorem applyChange_fst_of_error (opts : ApplyOptions) {w : World} {req : ChangeRequest}
    {msg : String}
    (h : applyChangeBody (dbAt w req.target.uri req.target.database) req.operation
      opts.dryRun = .error msg) :
    (applyChange w req opts).1.status = .failed ∧
    (applyChange w req opts).1.message = msg ∧
    (applyChange w req opts).1.revertPlan = none ∧
    (applyChange w req opts).1.changeId = (resolveChangeId w req.changeId).1 := by
  have hs : getServer (resolveChangeId w req.changeId).2 req.target.uri =
      getServer w req.target.uri :=
    getServer_congr req.target.uri (resolveChangeId_servers w req.changeId)
  have hfold : (alookup (getServer w req.target.uri).dbs req.target.database).getD
      ([] : DbData) = dbAt w req.target.uri req.target.database := rfl
  simp only [applyChange, hs, hfold, h]
  exact ⟨trivial, trivial, trivial, trivial⟩

theorem applyChange_snd_of_ok (opts : ApplyOptions) {w : World} {req : ChangeRequest}
    {st : Status} {msg : String} {plan : RevertPlan} {mdb : Option DbData}
    (h : applyChangeBody (dbAt w req.target.uri req.target.database) req.operation
      opts.dryRun = .ok (st, msg, plan, mdb)) (hdry : opts.dryRun = false) :
    (applyChange w req opts).2 =
      auditInsert (resolveChangeId w req.changeId).2 req.target.uri
        (getServer w req.target.uri) mdb req.target.database req
        (resolveChangeId w req.changeId).1 st msg (some plan) := by
  rw [hdry] at h
  have hs : getServer (resolveChangeId w req.changeId).2 req.target.uri =
      getServer w req.target.uri :=
    getServer_congr req.target.uri (resolveChangeId_servers w req.changeId)
  have hfold : (alookup (getServer w req.target.uri).dbs req.target.database).getD
      ([] : DbData) = dbAt w req.target.uri req.target.database := rfl
  simp only [applyChange, hs, hfold, hdry, h]
  simp

theorem applyChange_snd_of_error (opts : ApplyOptions) {w : World} {req : ChangeRequest}
    {msg : String}
    (h : applyChangeBody (dbAt w req.target.uri req.target.database) req.operation
      opts.dryRun = .error msg) (hdry : opts.dryRun = false) :
    (applyChange w req opts).2 =
      auditInsert (resolveChangeId w req.changeId).2 req.target.uri
        (getServer w req.target.uri) none req.target.database req
        (resolveChangeId w req.changeId).1 .failed msg none := by
  rw [hdry] at h
  have hs : getServer (resolveChangeId w req.changeId).2 req.target.uri =
      getServer w req.target.uri :=
    getServer_congr req.target.uri (resolveChangeId_servers w req.changeId)
  have hfold : (alookup (getServer w req.target.uri).dbs req.target.database).getD
      ([] : DbData) = dbAt w req.target.uri req.target.database := rfl
  simp only [applyChange, hs, hfold, hdry, h]
  simp

theorem applyChange_snd_dry {w : World} {req : ChangeRequest} :
    (applyChange w req { dryRun := true }).2 = (resolveChangeId w req.changeId).2 := by
  simp only [applyChange]
  cases h : applyChangeBody
      ((alookup (getServer (resolveChangeId w req.changeId).2 req.target.uri).dbs
        req.target.database).getD []) req.operation true <;> simp

theorem getServer_auditInsert_self (w : World) (uri : String) (s : Server)
    (mdb : Option DbData) (dbName : String) (req : ChangeRequest) (cid : String)
    (st : Status) (msg : String) (plan : Option RevertPlan) :
    getServer (auditInsert w uri s mdb dbName req cid st msg plan) uri =
      { dbs := match mdb with
               | some d => aupsert s.dbs dbName d
               | none => s.dbs,
        audit := s.audit ++ [auditRecOf w req cid st msg plan] } := by
  cases mdb <;> simp [auditInsert, getServer_setServer_self]

theorem getServer_auditInsert_ne (w : World) (uri : String) (s : Server)
    (mdb : Option DbData) (dbName : String) (req : ChangeRequest) (cid : String)
    (st : Status) (msg : String) (plan : Option RevertPlan) (u : String) (h : u ≠ uri) :
    getServer (auditInsert w uri s mdb dbName req cid st msg plan) u = getServer w u := by
  cases mdb <;>
    simp [auditInsert, getServer_setServer_ne _ _ _ _ (Ne.symm h)] <;>
    rfl

theorem applyChangeBody_dry (db : DbData) (op : Operation) :
    applyChangeBody db op true =
      (applyChangeBody db op false).map (fun x => (x.1, x.2.1, x.2.2.1, none)) := by
  cases op with
  | createCollection name =>
    by_cases h : (alookup db name).isSome <;> simp [applyChangeBody, h, Except.map]
  | createIndex collection spec options =>
    cases hf : (((alookup db collection).map Coll.indexes).getD []).find?
        (fun i => i.name == deriveIndexName options spec) with
    | none => simp [applyChangeBody, hf, Except.map]
    | some i =>
      by_cases hk : i.key = spec <;> simp [applyChangeBody, hf, hk, Except.map]

theorem applyChangeBody_ok_status {db : DbData} {op : Operation} {dry : Bool}
    {st : Status} {msg : String} {plan : RevertPlan} {mdb : Option DbData}
    (h : applyChangeBody db op dry = .ok (st, msg, plan, mdb)) :
    st = .applied ∨ st = .skipped := by
  cases op with
  | createCollection name =>
    by_cases he : (alookup db name).isSome <;> cases dry <;>
      simp [applyChangeBody, he] at h <;> simp_all
  | createIndex collection spec options =>
    cases hf : (((alookup db collection).map Coll.indexes).getD []).find?
        (fun i => i.name == deriveIndexName options spec) with
    | none =>
      cases dry <;> simp [applyChangeBody, hf] at h <;> simp_all
    | some i =>
      by_cases hk : i.key = spec <;> simp [applyChangeBody, hf, hk] at h <;>
        simp_all

/-- Claim C3: for every request and every would-be outcome, applyChange invoked
with simulate=true leaves every target database unchanged (no collection,
no index created) and writes nothing to the audit store — the server map of
the world is untouched — while still returning the ChangeResult the
non-simulated call would compute (same status, message, revert plan and
change id). -/
theorem applyChange_simulation_pure (w : World) (req : ChangeRequest) :
    (applyChange w req { dryRun := true }).2.servers = w.servers ∧
    (applyChange w req { dryRun := true }).1.status = (applyChange w req {}).1.status ∧
    (applyChange w req { dryRun := true }).1.message = (applyChange w req {}).1.message ∧
    (applyChange w req { dryRun := true }).1.revertPlan
      = (applyChange w req {}).1.revertPlan ∧
    (applyChange w req { dryRun := true }).1.changeId
      = (applyChange w req {}).1.changeId := by
  refine ⟨?_, ?_⟩
  · rw [applyChange_snd_dry]
    exact resolveChangeId_servers w req.changeId
  · cases hb : applyChangeBody (dbAt w req.target.uri req.target.database)
        req.operation false with
    | ok v =>
      obtain ⟨st, msg, plan, mdb⟩ := v
      have ht : applyChangeBody (dbAt w req.target.uri req.target.database)
          req.operation true = .ok (st, msg, plan, none) := by
        rw [applyChangeBody_dry, hb]
        rfl
      have h1 := applyChange_fst_of_ok { dryRun := true } ht
      have h2 := applyChange_fst_of_ok {} hb
      exact ⟨h1.1.trans h2.1.symm, (h1.2.1).trans h2.2.1.symm,
        (h1.2.2.1).trans h2.2.2.1.symm, (h1.2.2.2).trans h2.2.2.2.symm⟩
    | error m =>
      have ht : applyChangeBody (dbAt w req.target.uri req.target.database)
          req.operation true = .error m := by
        rw [applyChangeBody_dry, hb]
        rfl
      have h1 := applyChange_fst_of_error { dryRun := true } ht
      have h2 := applyChange_fst_of_error {} hb
      exact ⟨h1.1.trans h2.1.symm, (h1.2.1).trans h2.2.1.symm,
        (h1.2.2.1).trans h2.2.2.1.symm, (h1.2.2.2).trans h2.2.2.2.symm⟩

/-- Claim C4: every non-simulated applyChange call that reaches execution appends
exactly one audit record to the target server (and touches no other
server), whose status, message and change id agree with the returned
result; an error produced during execution is converted into a failed
result carrying the error message — it is returned, never thrown. -/
theorem applyChange_always_audits (w : World) (req : ChangeRequest) :
    (∃ r : AuditRecord,
      (getServer (applyChange w req {}).2 req.target.uri).audit
        = (getServer w req.target.uri).audit ++ [r] ∧
      r.status = (applyChange w req {}).1.status ∧
      r.message = (applyChange w req {}).1.message ∧
      r.changeId = (applyChange w req {}).1.changeId) ∧
    (∀ u : String, u ≠ req.target.uri →
      getServer (applyChange w req {}).2 u = getServer w u) ∧
    (∀ m : String,
      applyChangeBody (dbAt w req.target.uri req.target.database) req.operation false
        = .error m →
      (applyChange w req {}).1.status = .failed ∧
      (applyChange w req {}).1.message = m) := by
  cases hb : applyChangeBody (dbAt w req.target.uri req.target.database)
      req.operation false with
  | ok v =>
    obtain ⟨st, msg, plan, mdb⟩ := v
    have hf := applyChange_fst_of_ok {} hb
    have hs := applyChange_snd_of_ok {} hb rfl
    refine ⟨⟨auditRecOf (resolveChangeId w req.changeId).2 req
        (resolveChangeId w req.changeId).1 st msg (some plan), ?_, ?_, ?_, ?_⟩, ?_, ?_⟩
    · rw [hs, getServer_auditInsert_self]
    · simp [auditRecOf, hf.1]
    · simp [auditRecOf, hf.2.1]
    · simp [auditRecOf, hf.2.2.2]
    · intro u hu
      rw [hs, getServer_auditInsert_ne _ _ _ _ _ _ _ _ _ _ _ hu]
      exact getServer_congr u (resolveChangeId_servers w req.changeId)
    · intro m hm
      exact absurd hm (by simp)
  | error m0 =>
    have hf := applyChange_fst_of_error {} hb
    have hs := applyChange_snd_of_error {} hb rfl
    refine ⟨⟨auditRecOf (resolveChangeId w req.changeId).2 req
        (resolveChangeId w req.changeId).1 .failed m0 none, ?_, ?_, ?_, ?_⟩, ?_, ?_⟩
    · rw [hs, getServer_auditInsert_self]
    · simp [auditRecOf, hf.1]
    · simp [auditRecOf, hf.2.1]
    · simp [auditRecOf, hf.2.2.2]
    · intro u hu
      rw [hs, getServer_auditInsert_ne _ _ _ _ _ _ _ _ _ _ _ hu]
      exact getServer_congr u (resolveChangeId_servers w req.changeId)
    · intro m hm
      have : m0 = m := by simpa using hm
      exact ⟨hf.1, this ▸ hf.2.1⟩

/-- Claim C9: counterexample: a failed applyChange result does not carry a
revertPlan field (the catch path builds the result without it), so the
claim that every result carries all five fields fails on any name-collision
request. -/
theorem changeResult_failed_lacks_revertPlan_cex :
    (applyChange wWithIdx reqEmailDesc {}).1.status = .failed ∧
    (applyChange wWithIdx reqEmailDesc {}).1.revertPlan = none := by decide

/-- Claim C9: amended: every ChangeResult carries changeId, status, message and
durationMs; the revertPlan field is present exactly on the applied and
skipped outcomes, and absent from a failed result. -/
theorem changeResult_field_presence (w : World) (req : ChangeRequest)
    (opts : ApplyOptions) :
    ((applyChange w req opts).1.status ≠ .failed →
      ((applyChange w req opts).1.revertPlan).isSome = true) ∧
    ((applyChange w req opts).1.status = .failed →
      (applyChange w req opts).1.revertPlan = none) := by
  cases hb : applyChangeBody (dbAt w req.target.uri req.target.database)
      req.operation opts.dryRun with
  | ok v =>
    obtain ⟨st, msg, plan, mdb⟩ := v
    have hf := applyChange_fst_of_ok opts hb
    constructor
    · intro _
      rw [hf.2.2.1]
      rfl
    · intro hst
      rcases applyChangeBody_ok_status hb with h | h <;>
        rw [hf.1, h] at hst <;> exact absurd hst (by simp)
  | error m =>
    have hf := applyChange_fst_of_error opts hb
    exact ⟨fun hst => absurd hf.1 hst, fun _ => hf.2.2.1⟩

/-- Witness for the amended C9 theorem at a concrete applied request. -/
theorem changeResult_field_presence_witness :
    (applyChange wEmpty reqEmail {}).1.status ≠ .failed ∧
    ((applyChange wEmpty reqEmail {}).1.revertPlan).isSome = true :=
  ⟨by decide, (changeResult_field_presence wEmpty reqEmail {}).1 (by decide)⟩

theorem mapIndexes_getD (o : Option Coll) :
    ((o.map Coll.indexes).getD []) = (o.getD { docs := 0, indexes := [] }).indexes := by
  cases o <;> rfl

theorem createIndex_apply_skips {w : World} {req : ChangeRequest} {c : String}
    {spec : List (String × Int)} {opts : Option IndexOptions}
    (hop : req.operation = .createIndex c spec opts) {i : IndexInfo}
    (hi : (indexesAt w req.target.uri req.target.database c).find?
      (fun j => j.name == deriveIndexName opts spec) = some i)
    (hk : i.key = spec) : (applyChange w req {}).1.status = .skipped := by
  have hi' : (((alookup (dbAt w req.target.uri req.target.database) c).map
      Coll.indexes).getD []).find? (fun j => j.name == deriveIndexName opts spec)
      = some i := hi
  have hb : applyChangeBody (dbAt w req.target.uri req.target.database) req.operation false
      = .ok (.skipped,
          "Change skipped because an index with the same name and keys already exists.",
          .dropIndex c (deriveIndexName opts spec), none) := by
    rw [hop]
    simp [applyChangeBody, hi', hk]
  exact (applyChange_fst_of_ok {} hb).1

theorem createIndex_apply_fails {w : World} {req : ChangeRequest} {c : String}
    {spec : List (String × Int)} {opts : Option IndexOptions}
    (hop : req.operation = .createIndex c spec opts) {i : IndexInfo}
    (hi : (indexesAt w req.target.uri req.target.database c).find?
      (fun j => j.name == deriveIndexName opts spec) = some i)
    (hk : i.key ≠ spec) : (applyChange w req {}).1.status = .failed := by
  have hi' : (((alookup (dbAt w req.target.uri req.target.database) c).map
      Coll.indexes).getD []).find? (fun j => j.name == deriveIndexName opts spec)
      = some i := hi
  have hb : applyChangeBody (dbAt w req.target.uri req.target.database) req.operation false
      = .error "An index with this name already exists but uses different keys." := by
    rw [hop]
    simp [applyChangeBody, hi', hk]
  exact (applyChange_fst_of_error {} hb).1

theorem createIndex_apply_fresh {w : World} {req : ChangeRequest} {c : String}
    {spec : List (String × Int)} {opts : Option IndexOptions}
    (hop : req.operation = .createIndex c spec opts)
    (hfind : (indexesAt w req.target.uri req.target.database c).find?
      (fun j => j.name == deriveIndexName opts spec) = none) :
    (applyChange w req {}).1.status = .applied ∧
    indexesAt (applyChange w req {}).2 req.target.uri req.target.database c
      = indexesAt w req.target.uri req.target.database c
        ++ [{ name := deriveIndexName opts spec, key := spec }] := by
  have hfind' : (((alookup (dbAt w req.target.uri req.target.database) c).map
      Coll.indexes).getD []).find? (fun j => j.name == deriveIndexName opts spec)
      = none := hfind
  have hb : applyChangeBody (dbAt w req.target.uri req.target.database) req.operation false
      = .ok (.applied, "Change applied successfully.",
          .dropIndex c (deriveIndexName opts spec),
          some (aupsert (dbAt w req.target.uri req.target.database) c
            { ((alookup (dbAt w req.target.uri req.target.database) c).getD
                { docs := 0, indexes := [] }) with
              indexes := ((alookup (dbAt w req.target.uri req.target.database) c).getD
                { docs := 0, indexes := [] }).indexes ++
                [{ name := deriveIndexName opts spec, key := spec }] })) := by
    rw [hop]
    simp [applyChangeBody, hfind']
  refine ⟨(applyChange_fst_of_ok {} hb).1, ?_⟩
  have hs := applyChange_snd_of_ok {} hb rfl
  rw [hs]
  simp only [indexesAt, dbAt, getServer_auditInsert_self, alookup_aupsert_self,
    Option.getD_some, mapIndexes_getD]

theorem C1_helper_roundtrip {w : World} {req : ChangeRequest} {c : String}
    {spec : List (String × Int)} {opts : Option IndexOptions}
    (hop : req.operation = .createIndex c spec opts)
    (hfind : (indexesAt w req.target.uri req.target.database c).find?
      (fun j => j.name == deriveIndexName opts spec) = none) :
    (applyChange (applyChange w req {}).2 req {}).1.status = .skipped := by
  obtain ⟨-, h2⟩ := createIndex_apply_fresh hop hfind
  apply createIndex_apply_skips hop (i := { name := deriveIndexName opts spec, key := spec })
  · rw [h2, List.find?_append, hfind]
    simp
  · rfl

/-- Claim C1: for a validated createIndex request, applyChange resolves the
effective index name and checks the indexes of the target: an existing index
with that name and the identical key spec yields skipped; an existing index
with that name but a different key spec yields failed; on a target without
that name the request is applied and the identical request applied again is
then skipped. -/
theorem applyChange_createIndex_name_semantics (w : World) (req : ChangeRequest)
    (c : String) (spec : List (String × Int)) (opts : Option IndexOptions)
    (hop : req.operation = .createIndex c spec opts) :
    (∀ i : IndexInfo,
      (indexesAt w req.target.uri req.target.database c).find?
          (fun j => j.name == deriveIndexName opts spec) = some i →
      (i.key = spec → (applyChange w req {}).1.status = .skipped) ∧
      (i.key ≠ spec → (applyChange w req {}).1.status = .failed)) ∧
    ((indexesAt w req.target.uri req.target.database c).find?
        (fun j => j.name == deriveIndexName opts spec) = none →
      (applyChange w req {}).1.status = .applied ∧
      (applyChange (applyChange w req {}).2 req {}).1.status = .skipped) := by
  refine ⟨fun i hi => ⟨fun hk => createIndex_apply_skips hop hi hk,
    fun hk => createIndex_apply_fails hop hi hk⟩, fun hfind =>
    ⟨(createIndex_apply_fresh hop hfind).1, C1_helper_roundtrip hop hfind⟩⟩

/-- Witness for the C1 theorem: on an empty target the email index request
is applied and its identical resubmission is skipped. -/
theorem applyChange_createIndex_name_semantics_witness :
    ((indexesAt wEmpty "u" "D" "users").find?
        (fun j => j.name == deriveIndexName none [("email", 1)]) = none) ∧
    ((applyChange wEmpty reqEmail {}).1.status = .applied ∧
      (applyChange (applyChange wEmpty reqEmail {}).2 reqEmail {}).1.status = .skipped) :=
  ⟨by decide,
    (applyChange_createIndex_name_semantics wEmpty reqEmail "users" [("email", 1)] none
      rfl).2 (by decide)⟩

theorem find?_markReverted {l : List AuditRecord} {i : Nat} {r : AuditRecord}
    (h : l.find? (fun a => a.rid == i) = some r) (t : Nat) (msg : String) :
    (markReverted l i t msg).find? (fun a => a.rid == i) =
      some { r with
        revertedAt := some t
        revertMessage := some msg
        status := .reverted } := by
  induction l with
  | nil => exact absurd h (by simp)
  | cons a tl ih =>
    by_cases ha : a.rid = i
    · have hbt : (a.rid == i) = true := by simp [ha]
      have hr : a = r := by simpa [List.find?_cons, hbt] using h
      subst hr
      simp [markReverted, ha, List.find?_cons]
    · have hbf : (a.rid == i) = false := by simp [ha]
      have h2 : tl.find? (fun a => a.rid == i) = some r := by
        simpa [List.find?_cons, hbf] using h
      simp [markReverted, ha, List.find?_cons, hbf, ih h2]

/-- Claim C5: reverting a recorded createCollection refuses when the collection
holds at least one document — failed with the not-empty message and a
completely untouched world — and on an empty collection drops it and marks
the audit record reverted. -/
theorem revertChange_createCollection_guard (w : World) (cid uri : String)
    (dbArg : Option String) (r : AuditRecord) (c : String)
    (hlatest : latestAudit (getServer w uri).audit cid uri = some r)
    (hop : r.operation = .createCollection c)
    (hfirst : (getServer w uri).audit.find? (fun a => a.rid == r.rid) = some r) :
    (∀ coll : Coll,
      alookup (dbAt w uri (revertDbName dbArg r.targetDb)) c = some coll →
      0 < coll.docs →
      (revertChange w cid uri dbArg).1.status = .failed ∧
      (revertChange w cid uri dbArg).1.message
        = "Cannot drop the collection because it is not empty." ∧
      (revertChange w cid uri dbArg).2 = w) ∧
    (∀ coll : Coll,
      alookup (dbAt w uri (revertDbName dbArg r.targetDb)) c = some coll →
      coll.docs = 0 →
      (revertChange w cid uri dbArg).1.status = .reverted ∧
      alookup (dbAt (revertChange w cid uri dbArg).2 uri
          (revertDbName dbArg r.targetDb)) c = none ∧
      (getServer (revertChange w cid uri dbArg).2 uri).audit.find?
          (fun a => a.rid == r.rid)
        = some { r with
            status := .reverted
            revertedAt := some w.counter
            revertMessage := some "Collection dropped successfully." }) := by
  constructor
  · intro coll hcoll hpos
    have hcoll2 : alookup ((alookup (getServer w uri).dbs
        (revertDbName dbArg r.targetDb)).getD []) c = some coll := hcoll
    refine ⟨?_, ?_, ?_⟩ <;> simp [revertChange, hlatest, hop, hcoll2, hpos]
  · intro coll hcoll hzero
    have hcoll2 : alookup ((alookup (getServer w uri).dbs
        (revertDbName dbArg r.targetDb)).getD []) c = some coll := hcoll
    refine ⟨?_, ?_, ?_⟩
    · simp [revertChange, hlatest, hop, hcoll2, hzero]
    · simp [revertChange, hlatest, hop, hcoll2, hzero, dbAt,
        getServer_setServer_self, alookup_aupsert_self, alookup_aremove_self]
    · simp [revertChange, hlatest, hop, hcoll2, hzero, getServer_setServer_self]
      rw [← hop]
      exact find?_markReverted hfirst _ _

/-- Witness for the C5 theorem: a populated logs collection refuses the
revert and an empty one is dropped and marked reverted. -/
theorem revertChange_createCollection_guard_witness :
    ((revertChange wPopulated "cc" "u" none).1.status = .failed ∧
     (revertChange wPopulated "cc" "u" none).1.message
       = "Cannot drop the collection because it is not empty." ∧
     (revertChange wPopulated "cc" "u" none).2 = wPopulated) ∧
    ((revertChange wEmptyColl "cc" "u" none).1.status = .reverted ∧
     alookup (dbAt (revertChange wEmptyColl "cc" "u" none).2 "u" "D") "logs" = none ∧
     (getServer (revertChange wEmptyColl "cc" "u" none).2 "u").audit.find?
         (fun a => a.rid == auditRecLogs.rid)
       = some { auditRecLogs with
           status := .reverted
           revertedAt := some 1
           revertMessage := some "Collection dropped successfully." }) :=
  ⟨(revertChange_createCollection_guard wPopulated "cc" "u" none auditRecLogs "logs"
      (by decide) (by decide) (by decide)).1 { docs := 2, indexes := [] }
      (by decide) (by decide),
   (revertChange_createCollection_guard wEmptyColl "cc" "u" none auditRecLogs "logs"
      (by decide) (by decide) (by decide)).2 { docs := 0, indexes := [] }
      (by decide) (by decide)⟩

/-- Claim C10: with an allow-pattern configured, getClient tests the URI against
the pattern before the connection cache is consulted and before any
connection attempt: a non-matching URI always fails closed — even if it was
cached earlier under a previous or absent pattern — the cache and the
connection log are untouched, so a blocked URI is never connected. -/
theorem getClient_allow_pattern_first (p : String → Bool) (st : ConnState)
    (uri : String) (h : p uri = false) :
    getClient (some p) st uri
      = (.error "The provided MongoDB URI does not match ALLOW_TARGET_URI_REGEX.",
         st) := by
  simp [getClient, h]

/-- Witness for the C10 theorem: a URI already present in the cache is still
refused and nothing is connected. -/
theorem getClient_allow_pattern_first_witness :
    ((fun u => u == "mongodb://good") "mongodb://bad") = false ∧
    getClient (some (fun u => u == "mongodb://good"))
        { cache := ["mongodb://bad"], connections := ["mongodb://bad"] } "mongodb://bad"
      = (.error "The provided MongoDB URI does not match ALLOW_TARGET_URI_REGEX.",
         { cache := ["mongodb://bad"], connections := ["mongodb://bad"] }) :=
  ⟨by decide, getClient_allow_pattern_first _ _ _ (by decide)⟩

theorem applyChangeBody_createIndex_plan {db : DbData} {c : String}
    {spec : List (String × Int)} {opts : Option IndexOptions} {dry : Bool}
    {st : Status} {msg : String} {plan : RevertPlan} {mdb : Option DbData}
    (h : applyChangeBody db (.createIndex c spec opts) dry = .ok (st, msg, plan, mdb)) :
    plan = .dropIndex c (deriveIndexName opts spec) := by
  cases hf : (((alookup db c).map Coll.indexes).getD []).find?
      (fun i => i.name == deriveIndexName opts spec) with
  | none =>
    cases dry <;> simp [applyChangeBody, hf] at h <;> simp_all
  | some i =>
    by_cases hk : i.key = spec <;> simp [applyChangeBody, hf, hk] at h <;> simp_all

/-- Claim C6: counterexample: a createIndex spec listing fields as b then a yields
the effective name idx_b_a — the fields in spec order — not the idx_a_b the
sorted-order derivation of the claim would give. -/
theorem deriveIndexName_not_sorted_cex :
    (applyChange wEmpty reqTwoFields {}).1.revertPlan
      = some (.dropIndex "users" "idx_b_a") ∧
    indexesAt (applyChange wEmpty reqTwoFields {}).2 "u" "D" "users"
      = [{ name := "idx_b_a", key := [("b", 1), ("a", 1)] }] ∧
    sortedDerivedName [("b", 1), ("a", 1)] = "idx_a_b" ∧
    ("idx_b_a" : String) ≠ "idx_a_b" := by decide

/-- Claim C6: amended: without an explicit non-empty options.name the effective
index name — used by applyChange (visible in its revert plan) and by
revertChange (visible in its drop-failure message) — is idx_ followed by
the field names in spec order joined by underscores; as a function
of the spec it is deterministic, so identical specs resolve identically. -/
theorem deriveIndexName_spec_order (spec : List (String × Int))
    (opts : Option IndexOptions)
    (hname : opts = none ∨ opts = some { name := none }
      ∨ opts = some { name := some "" }) :
    deriveIndexName opts spec
      = "idx_" ++ String.intercalate "_" (spec.map Prod.fst) ∧
    (∀ (w : World) (req : ChangeRequest) (c : String),
      req.operation = .createIndex c spec opts →
      (applyChange w req {}).1.status ≠ .failed →
      (applyChange w req {}).1.revertPlan
        = some (.dropIndex c
            ("idx_" ++ String.intercalate "_" (spec.map Prod.fst)))) ∧
    (∀ (w : World) (cid uri : String) (dbArg : Option String) (r : AuditRecord)
        (c : String) (coll : Coll),
      latestAudit (getServer w uri).audit cid uri = some r →
      r.operation = .createIndex c spec opts →
      alookup (dbAt w uri (revertDbName dbArg r.targetDb)) c = some coll →
      coll.indexes.any (fun i => i.name == deriveIndexName opts spec) = false →
      (revertChange w cid uri dbArg).1.message
        = "Failed to drop index: index not found with name "
          ++ ("idx_" ++ String.intercalate "_" (spec.map Prod.fst))) := by
  have hderived : deriveIndexName opts spec
      = "idx_" ++ String.intercalate "_" (spec.map Prod.fst) := by
    rcases hname with h | h | h <;> subst h <;> simp [deriveIndexName]
  refine ⟨hderived, ?_, ?_⟩
  · intro w req c hop hne
    cases hb : applyChangeBody (dbAt w req.target.uri req.target.database)
        req.operation false with
    | ok v =>
      obtain ⟨st, msg, plan, mdb⟩ := v
      have hf := applyChange_fst_of_ok {} hb
      rw [hop] at hb
      rw [hf.2.2.1, applyChangeBody_createIndex_plan hb, hderived]
    | error m =>
      exact absurd (applyChange_fst_of_error {} hb).1 hne
  · intro w cid uri dbArg r c coll hlatest hop hcoll hany
    have hcoll2 : alookup ((alookup (getServer w uri).dbs
        (revertDbName dbArg r.targetDb)).getD []) c = some coll := hcoll
    rw [← hderived]
    simp [revertChange, hlatest, hop, hcoll2, hany]

/-- Witness for the amended C6 theorem: the two-field request resolves to
idx_b_a and carries it in its revert plan. -/
theorem deriveIndexName_spec_order_witness :
    (applyChange wEmpty reqTwoFields {}).1.status ≠ .failed ∧
    (applyChange wEmpty reqTwoFields {}).1.revertPlan
      = some (.dropIndex "users"
          ("idx_" ++ String.intercalate "_"
            (([("b", 1), ("a", 1)] : List (String × Int)).map Prod.fst))) :=
  ⟨by decide,
    (deriveIndexName_spec_order [("b", 1), ("a", 1)] none (Or.inl rfl)).2.1
      wEmpty reqTwoFields "users" rfl (by decide)⟩


theorem listChanges_items_subset {w : World} {uri : String} {q : ListQuery}
    {r : AuditRecord} (hr : r ∈ (listChanges w uri q).items) :
    listFilter uri q r = true := by
  simp only [listChanges] at hr
  have h1 : r ∈ List.insertionSort newestFirst
      ((getServer w uri).audit.filter (listFilter uri q)) :=
    List.mem_of_mem_drop (List.mem_of_mem_take hr)
  have h2 : r ∈ (getServer w uri).audit.filter (listFilter uri q) :=
    (List.perm_insertionSort newestFirst _).mem_iff.mp h1
  exact (List.mem_filter.mp h2).2

/-- Claim C7: listChanges excludes reverted records when no status filter is
given; an explicit comma-separated filter replaces the default (and may
name reverted); at most 500 items are returned; items are ordered
newest-first by creation time; and the result carries the total matching
count alongside the page. -/
theorem listChanges_spec (w : World) (uri : String) (q : ListQuery) :
    (q.status = none →
      ∀ r ∈ (listChanges w uri q).items, r.status ≠ .reverted) ∧
    (∀ s : String, q.status = some s → s ≠ "" →
      ∀ r ∈ (listChanges w uri q).items,
        r.status.toString ∈ parseStatusFilter s) ∧
    (listChanges w uri q).items.length ≤ 500 ∧
    List.Sorted newestFirst (listChanges w uri q).items ∧
    (listChanges w uri q).total
      = ((getServer w uri).audit.filter (listFilter uri q)).length := by
  refine ⟨?_, ?_, ?_, ?_, rfl⟩
  · intro hq r hr
    have hf := listChanges_items_subset hr
    simp only [listFilter, hq, Bool.and_eq_true] at hf
    simpa using hf.1.2
  · intro s hq hs r hr
    have hf := listChanges_items_subset hr
    simp only [listFilter, hq, Bool.and_eq_true] at hf
    have h2 := hf.1.2
    rw [if_neg hs] at h2
    simpa using h2
  · have h1 : (listChanges w uri q).items.length
        ≤ min (match q.limit with
               | some n => if n = 0 then 100 else n
               | none => 100) 500 := by
      simp only [listChanges]
      exact List.length_take_le _ _
    exact h1.trans (Nat.min_le_right _ _)
  · have hsorted : List.Sorted newestFirst
        (List.insertionSort newestFirst
          ((getServer w uri).audit.filter (listFilter uri q))) :=
      List.sorted_insertionSort newestFirst _
    have hsub : List.Sublist (listChanges w uri q).items
        (List.insertionSort newestFirst
          ((getServer w uri).audit.filter (listFilter uri q))) := by
      simp only [listChanges]
      exact (List.take_sublist _ _).trans (List.drop_sublist _ _)
    exact List.Pairwise.sublist hsub hsorted

/-- Witness for the C7 theorem: with the default query the reverted record
is hidden; asking for status=reverted returns exactly it. -/
theorem listChanges_spec_witness :
    ((listChanges wListing "u" {}).items.map (fun r => r.rid) = [2, 0]) ∧
    ((listChanges wListing "u" { status := some "reverted" }).items.map
        (fun r => r.rid) = [1]) ∧
    (∀ r ∈ (listChanges wListing "u" {}).items, r.status ≠ .reverted) :=
  ⟨by decide, by decide, (listChanges_spec wListing "u" {}).1 rfl⟩

theorem seqApply_dry_servers (cs : List ChangeRequest) :
    ∀ w : World, (seqApply w cs true).2.servers = w.servers := by
  induction cs with
  | nil => intro w; rfl
  | cons c more ih =>
    intro w
    simp only [seqApply]
    rw [ih, applyChange_snd_dry, resolveChangeId_servers, assignId_servers]

theorem applyBatchAux_dry (cs : List ChangeRequest) :
    ∀ (w : World) (i0 : Nat) (results : List ChangeResult)
      (applied : List (String × Target)) (stopB : Bool),
    applyBatchAux w cs i0 results applied stopB true =
      ({ status := "ok", failedAt := none,
         results := results ++ (seqApply w cs true).1 }, (seqApply w cs true).2) := by
  induction cs with
  | nil =>
    intro w i0 results applied stopB
    simp [applyBatchAux, seqApply]
  | cons c more ih =>
    intro w i0 results applied stopB
    simp only [applyBatchAux, seqApply]
    rw [if_neg (by simp)]
    rw [ih]
    simp

theorem appliedEntries_of_skipped {rs : List ChangeResult}
    (h : ∀ r ∈ rs, r.status = .skipped) (cs : List ChangeRequest) :
    appliedEntries rs cs = [] := by
  induction rs generalizing cs with
  | nil => simp [appliedEntries]
  | cons r rest ih =>
    cases cs with
    | nil => simp [appliedEntries]
    | cons c crest =>
      have hr := h r (by simp)
      simp [appliedEntries, hr]
      intro a b hab
      have ha := h a (by simp [(List.of_mem_zip hab).1])
      simp [ha]

theorem applyBatchAux_first_fail (post : List ChangeRequest) (cmid : ChangeRequest) :
    ∀ (pre : List ChangeRequest) (w : World) (i0 : Nat)
      (results : List ChangeResult) (applied : List (String × Target)),
    (∀ r ∈ (seqApply w pre false).1, r.status ≠ .failed) →
    (applyChange (assignId (seqApply w pre false).2 cmid).2
        (assignId (seqApply w pre false).2 cmid).1 { dryRun := false }).1.status
      = .failed →
    applyBatchAux w (pre ++ cmid :: post) i0 results applied true false =
      ({ status := "rolled_back", failedAt := some (i0 + pre.length),
         results := results ++ (seqApply w pre false).1
           ++ [(applyChange (assignId (seqApply w pre false).2 cmid).2
                (assignId (seqApply w pre false).2 cmid).1 { dryRun := false }).1] },
       compensate
         ((applyChange (assignId (seqApply w pre false).2 cmid).2
             (assignId (seqApply w pre false).2 cmid).1 { dryRun := false }).2)
         ((applied ++ appliedEntries (seqApply w pre false).1 pre).reverse)) := by
  intro pre
  induction pre with
  | nil =>
    intro w i0 results applied hpre hfail
    simp only [seqApply] at hfail
    simp only [List.nil_append, applyBatchAux]
    rw [if_pos (by refine ⟨hfail, ?_, ?_⟩ <;> simp)]
    simp [seqApply, appliedEntries]
  | cons c pre2 ih =>
    intro w i0 results applied hpre hfail
    have hres0 : (applyChange (assignId w c).2 (assignId w c).1
        { dryRun := false }).1.status ≠ .failed := by
      apply hpre
      simp [seqApply]
    simp only [seqApply] at hfail
    have hpre2 : ∀ r ∈ (seqApply (applyChange (assignId w c).2 (assignId w c).1
        { dryRun := false }).2 pre2 false).1, r.status ≠ .failed := by
      intro r hr
      apply hpre
      simp [seqApply, hr]
    simp only [List.cons_append, applyBatchAux]
    rw [if_neg (by simp [hres0])]
    simp only [List.append_eq]
    rw [ih (applyChange (assignId w c).2 (assignId w c).1 { dryRun := false }).2
      (i0 + 1) _ _ hpre2 hfail]
    simp only [seqApply]
    by_cases hap : (applyChange (assignId w c).2 (assignId w c).1
        { dryRun := false }).1.status = .applied
    · rw [if_pos (by exact ⟨hap, by simp⟩)]
      simp [appliedEntries, hap]
      omega
    · rw [if_neg (by simp [hap])]
      simp [appliedEntries, hap]
      omega

/-- Claim C2: in a non-simulated batch with stopOnError in force, the first
failed result stops the run immediately: the batch returns rolled_back with
failedAt the failing index and exactly the results collected so far (the
requests after it are never attempted — they do not occur in the outcome),
and the final world is obtained by compensating exactly the applied (never
skipped) changes of the prefix, in reverse application order, each revert
outcome being discarded. -/
theorem applyBatch_first_failure_rolls_back (w : World)
    (pre post : List ChangeRequest) (cmid : ChangeRequest) (opts : BatchOptions)
    (hstop : opts.stopOnError ≠ some false) (hdry : opts.dryRun = false)
    (hpre : ∀ r ∈ (seqApply w pre false).1, r.status ≠ .failed)
    (hfail : (applyChange (assignId (seqApply w pre false).2 cmid).2
        (assignId (seqApply w pre false).2 cmid).1 { dryRun := false }).1.status
      = .failed) :
    applyBatch w (pre ++ cmid :: post) opts =
      ({ status := "rolled_back", failedAt := some pre.length,
         results := (seqApply w pre false).1
           ++ [(applyChange (assignId (seqApply w pre false).2 cmid).2
                (assignId (seqApply w pre false).2 cmid).1 { dryRun := false }).1] },
       compensate
         ((applyChange (assignId (seqApply w pre false).2 cmid).2
             (assignId (seqApply w pre false).2 cmid).1 { dryRun := false }).2)
         ((appliedEntries (seqApply w pre false).1 pre).reverse)) := by
  have h1 : applyBatch w (pre ++ cmid :: post) opts
      = applyBatchAux w (pre ++ cmid :: post) 0 [] []
        (decide (opts.stopOnError ≠ some false)) opts.dryRun := rfl
  rw [h1, hdry, decide_eq_true hstop,
    applyBatchAux_first_fail post cmid pre w 0 [] [] hpre hfail]
  simp

/-- Witness for the C2 theorem: creating the email index then colliding on
its name rolls the batch back at index 1, the third request is never
reached, and the index created by the first request is gone afterwards. -/
theorem applyBatch_first_failure_rolls_back_witness :
    (∀ r ∈ (seqApply wEmpty [reqEmail] false).1, r.status ≠ .failed) ∧
    applyBatch wEmpty ([reqEmail] ++ reqEmailDesc :: [reqNewColl]) {}
      = ({ status := "rolled_back", failedAt := some 1,
           results := (seqApply wEmpty [reqEmail] false).1
             ++ [(applyChange (assignId (seqApply wEmpty [reqEmail] false).2
                    reqEmailDesc).2
                  (assignId (seqApply wEmpty [reqEmail] false).2 reqEmailDesc).1
                  { dryRun := false }).1] },
         compensate
           ((applyChange (assignId (seqApply wEmpty [reqEmail] false).2
                reqEmailDesc).2
               (assignId (seqApply wEmpty [reqEmail] false).2 reqEmailDesc).1
               { dryRun := false }).2)
           ((appliedEntries (seqApply wEmpty [reqEmail] false).1
              [reqEmail]).reverse)) ∧
    indexesAt (applyBatch wEmpty ([reqEmail] ++ reqEmailDesc :: [reqNewColl]) {}).2
      "u" "D" "users" = [] :=
  ⟨by decide,
   applyBatch_first_failure_rolls_back wEmpty [reqEmail] [reqNewColl] reqEmailDesc {}
     (by decide) rfl (by decide) (by decide),
   by decide⟩

/-- Claim C8: a simulated batch never returns rolled_back and never invokes the
revert engine — its status is ok and the servers are untouched regardless
of stopOnError, even when results contain failures — and skipped changes
are never compensated: in a non-simulated batch whose prefix results are
all skipped, the world after the failing step is returned as is, with no
revert applied. -/
theorem applyBatch_simulation_no_rollback (w : World) (cs : List ChangeRequest) :
    (∀ stopOpt : Option Bool,
      (applyBatch w cs { stopOnError := stopOpt, dryRun := true }).1.status = "ok" ∧
      (applyBatch w cs { stopOnError := stopOpt, dryRun := true }).2.servers
        = w.servers) ∧
    (∀ (pre post : List ChangeRequest) (cmid : ChangeRequest),
      (∀ r ∈ (seqApply w pre false).1, r.status = .skipped) →
      (applyChange (assignId (seqApply w pre false).2 cmid).2
          (assignId (seqApply w pre false).2 cmid).1 { dryRun := false }).1.status
        = .failed →
      (applyBatch w (pre ++ cmid :: post) {}).2
        = (applyChange (assignId (seqApply w pre false).2 cmid).2
            (assignId (seqApply w pre false).2 cmid).1 { dryRun := false }).2) := by
  constructor
  · intro stopOpt
    have h1 : applyBatch w cs { stopOnError := stopOpt, dryRun := true }
        = applyBatchAux w cs 0 [] [] (decide (stopOpt ≠ some false)) true := rfl
    rw [h1, applyBatchAux_dry]
    exact ⟨rfl, seqApply_dry_servers cs w⟩
  · intro pre post cmid hskip hfail
    have hpre : ∀ r ∈ (seqApply w pre false).1, r.status ≠ .failed := by
      intro r hr
      rw [hskip r hr]
      simp
    have h1 : applyBatch w (pre ++ cmid :: post) ({} : BatchOptions)
        = applyBatchAux w (pre ++ cmid :: post) 0 [] [] true false := rfl
    rw [h1, applyBatchAux_first_fail post cmid pre w 0 [] [] hpre hfail]
    simp [appliedEntries_of_skipped hskip, compensate]

/-- Witness for the C8 theorem: a simulated batch whose second result is
failed still reports ok, leaves the servers untouched, and rolls nothing
back. -/
theorem applyBatch_simulation_no_rollback_witness :
    (applyBatch wWithIdx [reqEmail, reqEmailDesc] { dryRun := true }).1.status
      = "ok" ∧
    (applyBatch wWithIdx [reqEmail, reqEmailDesc] { dryRun := true }).2.servers
      = wWithIdx.servers ∧
    (applyBatch wWithIdx [reqEmail, reqEmailDesc] { dryRun := true }).1.results.map
        (fun r => r.status) = [.skipped, .failed] :=
  ⟨((applyBatch_simulation_no_rollback wWithIdx [reqEmail, reqEmailDesc]).1 none).1,
   ((applyBatch_simulation_no_rollback wWithIdx [reqEmail, reqEmailDesc]).1 none).2,
   by decide⟩

/-- Witness for the C4 theorem: a server other than the target keeps its
state across an apply. -/
theorem applyChange_always_audits_witness :
    ("other" : String) ≠ reqEmail.target.uri ∧
    getServer (applyChange wEmpty reqEmail {}).2 "other" = getServer wEmpty "other" :=
  ⟨by decide, (applyChange_always_audits wEmpty reqEmail).2.1 "other" (by decide)⟩

end CICD
